import Mathlib

/-!
Shallow embedding of the bounded connection pool in `conn.go` (package
`refined`).  The pool state is a record; every public operation is a pure
function from a state to an `Outcome`, which records the returned value or
error, the state reached, and a trace of the primitive events the operation
performed (lock/unlock, channel sends/receives, factory and close calls,
and every mutation of the `active` counter).  Channel operations that would
block forever in a single-caller execution (a send on the unbuffered
`event` channel with no waiting receiver, a receive from an empty channel
with no concurrent sender, locking a mutex that was left locked) produce the
`blocked` outcome, carrying the state and trace at the blocking point.
-/

namespace Refined

/-- A poolable resource: `done` says whether its liveness channel
(`Done()`) has already fired, `closeFails` whether `Close()` returns an
error. -/
structure Resource where
  id : Nat
  done : Bool
  closeFails : Bool
deriving DecidableEq

/-- Errors of the pool: the two sentinel errors of `conn.go`, plus opaque
builder and close errors carrying a tag. -/
inductive Err where
  | poolClosed
  | invalidConfig
  | builderErr (n : Nat)
  | closeErr (id : Nat)
deriving DecidableEq

/-- Primitive events an operation can perform, in program order. -/
inductive Ev where
  | lock
  | unlock
  | recvPool (id : Nat)
  | sendPool (id : Nat)
  | factoryCall (ok : Bool)
  | incActive (newVal : Int)
  | decActive (newVal : Int)
  | closeCall (id : Nat) (ok : Bool)
  | sendEvent
deriving DecidableEq

/-- The fields of the `Conn` struct: `pool` is the contents of the buffered
channel (head = front), `max` the capacity, `active` the counter, `closed`
the flag, `mutexHeld` whether the mutex was left locked by an early return,
`built` the number of builder invocations so far. -/
structure ConnState where
  pool : List Resource
  max : Nat
  active : Int
  closed : Bool
  mutexHeld : Bool
  built : Nat
deriving DecidableEq

/-- Result of running one operation sequentially: a value or error together
with the reached state and event trace, or `blocked` at some state/trace
when a channel or mutex operation cannot complete without a concurrent
partner. -/
inductive Outcome (α : Type) where
  | ok (a : α) (s : ConnState) (tr : List Ev)
  | fail (e : Err) (s : ConnState) (tr : List Ev)
  | blocked (s : ConnState) (tr : List Ev)
deriving DecidableEq

variable {α : Type}

def Outcome.state : Outcome α → ConnState
  | .ok _ s _ => s
  | .fail _ s _ => s
  | .blocked s _ => s

def Outcome.trace : Outcome α → List Ev
  | .ok _ _ tr => tr
  | .fail _ _ tr => tr
  | .blocked _ tr => tr

def Outcome.isOk : Outcome α → Bool
  | .ok _ _ _ => true
  | _ => false

def Outcome.isFail : Outcome α → Bool
  | .fail _ _ _ => true
  | _ => false

/-- Prepend earlier events to an outcome's trace. -/
def Outcome.withTrace : Outcome α → List Ev → Outcome α
  | .ok a s tr, tr0 => .ok a s (tr0 ++ tr)
  | .fail e s tr, tr0 => .fail e s (tr0 ++ tr)
  | .blocked s tr, tr0 => .blocked s (tr0 ++ tr)

/-- The `builder` function type, with an explicit invocation counter so
each call is distinguishable. -/
def builder : Type := Nat → Except Err Resource

/-- `Conn.acquire` (the lowercase inner function): non-blocking take from
the pool channel; otherwise lock, and either wait (blocked: the pool is
empty and nobody sends on `event` in a single-caller run) when
`active >= max`, or call the builder under the lock, increment `active`
on success, unlock, send the new resource to the pool channel and take it
back. On builder error, unlock and propagate the error verbatim. -/
def acquire (B : builder) (s : ConnState) : Outcome Resource :=
  match s.pool with
  | c :: rest => .ok c { s with pool := rest } [.recvPool c.id]
  | [] =>
    if s.mutexHeld then .blocked s []
    else if (s.max : Int) ≤ s.active then .blocked s [.lock, .unlock]
    else
      match B s.built with
      | .error e => .fail e { s with built := s.built + 1 } [.lock, .factoryCall false, .unlock]
      | .ok c =>
          .ok c { s with built := s.built + 1, active := s.active + 1 }
            [.lock, .factoryCall true, .incActive (s.active + 1), .unlock,
             .sendPool c.id, .recvPool c.id]

/-- `Conn.Close` (the spec's Retire): lock; call `closer.Close()`; on close
failure return the error early — without unlocking the mutex and without
decrementing `active`; on success decrement `active`, unlock, and send on
the unbuffered `event` channel, which blocks with no waiting receiver. -/
def Close (c : Resource) (s : ConnState) : Outcome Unit :=
  if s.mutexHeld then .blocked s []
  else if c.closeFails then
    .fail (.closeErr c.id) { s with mutexHeld := true } [.lock, .closeCall c.id false]
  else
    .blocked { s with active := s.active - 1 }
      [.lock, .closeCall c.id true, .decActive (s.active - 1), .unlock, .sendEvent]

/-- The retry loop of `Conn.Acquire`: call `acquire`; propagate its error;
if the obtained resource's `Done()` has fired, call `Close` on it (its
return value is discarded) and continue, otherwise return the resource.
`fuel` bounds the number of iterations; it is chosen large enough in
`Acquire` for every sequentially reachable run. -/
def AcquireLoop (B : builder) : Nat → ConnState → Outcome Resource
  | 0, s => .blocked s []
  | fuel + 1, s =>
    match acquire B s with
    | .fail e s2 tr => .fail e s2 tr
    | .blocked s2 tr => .blocked s2 tr
    | .ok c s2 tr =>
      if c.done then
        match Close c s2 with
        | .blocked s3 tr2 => .blocked s3 (tr ++ tr2)
        | .fail _ s3 tr2 => (AcquireLoop B fuel s3).withTrace (tr ++ tr2)
        | .ok _ s3 tr2 => (AcquireLoop B fuel s3).withTrace (tr ++ tr2)
      else .ok c s2 tr

/-- `Conn.Acquire`: fail with `PoolClosed` when the pool is closed,
otherwise run the retry loop. -/
def Acquire (B : builder) (s : ConnState) : Outcome Resource :=
  if s.closed then .fail .poolClosed s []
  else AcquireLoop B (s.pool.length + 2) s

/-- `Conn.Regain`: fail with `PoolClosed` when closed, otherwise send the
resource back on the pool channel (which blocks when the buffer is full). -/
def Regain (c : Resource) (s : ConnState) : Outcome Unit :=
  if s.closed then .fail .poolClosed s []
  else if s.pool.length < s.max then .ok () { s with pool := s.pool ++ [c] } [.sendPool c.id]
  else .blocked s []

/-- Events of the shutdown drain loop: per drained resource, `active--`
followed by `closer.Close()` whose error is ignored. -/
def drainEvents : List Resource → Int → List Ev
  | [], _ => []
  | c :: rest, a => .decActive (a - 1) :: .closeCall c.id (!c.closeFails) :: drainEvents rest (a - 1)

/-- `Conn.Release` (the spec's Shutdown): fail with `PoolClosed` when
already closed; otherwise lock, close the pool channel, drain every
resource sitting in it (decrementing `active` and calling `Close()` whose
error is discarded), set `closed`, unlock, and return nil. -/
def Release (s : ConnState) : Outcome Unit :=
  if s.closed then .fail .poolClosed s []
  else if s.mutexHeld then .blocked s []
  else
    .ok () { s with pool := [], active := s.active - s.pool.length, closed := true }
      ([.lock] ++ drainEvents s.pool s.active ++ [.unlock])

/-- The eager construction loop of `NewConnManager`: `max` builder calls;
on success `active++` then send to the pool channel; on error return the
error immediately — already-built resources are not closed. -/
def buildN (B : builder) : Nat → ConnState → Except Err ConnState × List Ev
  | 0, s => (.ok s, [])
  | n + 1, s =>
    match B s.built with
    | .error e => (.error e, [.factoryCall false])
    | .ok c =>
        let s2 := { s with built := s.built + 1, active := s.active + 1, pool := s.pool ++ [c] }
        let r := buildN B n s2
        (r.1, .factoryCall true :: .incActive (s.active + 1) :: .sendPool c.id :: r.2)

/-- `NewConnManager`: `InvalidConfig` on non-positive capacity, otherwise
eager construction of `max` resources. Returns the result together with
the construction trace. -/
def NewConnManager (max : Int) (B : builder) : Except Err ConnState × List Ev :=
  if max ≤ 0 then (.error .invalidConfig, [])
  else
    buildN B max.toNat
      { pool := [], max := max.toNat, active := 0, closed := false, mutexHeld := false, built := 0 }

/-- One pool operation of a caller-chosen sequence. -/
inductive Op where
  | acq
  | regain (c : Resource)
  | retire (c : Resource)
  | shutdown
deriving DecidableEq

/-- Apply one operation, keeping the reached state (also at a blocking
point) and the trace of events it performed. -/
def applyOp (B : builder) : Op → ConnState → ConnState × List Ev
  | .acq, s => ((Acquire B s).state, (Acquire B s).trace)
  | .regain c, s => ((Regain c s).state, (Regain c s).trace)
  | .retire c, s => ((Close c s).state, (Close c s).trace)
  | .shutdown, s => ((Release s).state, (Release s).trace)

/-- All states visited by a sequence of operations (including the initial
one). -/
def runStates (B : builder) : List Op → ConnState → List ConnState
  | [], s => [s]
  | op :: ops, s => s :: runStates B ops (applyOp B op s).1

/-- All events performed by a sequence of operations. -/
def runEvents (B : builder) : List Op → ConnState → List Ev
  | [], _ => []
  | op :: ops, s => (applyOp B op s).2 ++ runEvents B ops (applyOp B op s).1

/-- Is the event an `active` increment? -/
def isIncEv : Ev → Bool
  | .incActive _ => true
  | _ => false

/-- Is the event a factory invocation? -/
def isFactoryEv : Ev → Bool
  | .factoryCall _ => true
  | _ => false

/-- Is the event a mutex unlock? -/
def isUnlockEv : Ev → Bool
  | .unlock => true
  | _ => false

/-! ### Helper lemmas: the capacity bound `active ≤ max` -/

/-- Every `incActive` event in the trace is bounded by the capacity. -/
def TraceOK (m : Nat) (tr : List Ev) : Prop :=
  ∀ v, Ev.incActive v ∈ tr → v ≤ (m : Int)

/-- Bundled invariant on an outcome: the reached state keeps `active`
below the capacity, the capacity itself is unchanged, and every increment
recorded in the trace respects it. -/
def OutcomeOK (m : Nat) (o : Outcome α) : Prop :=
  o.state.active ≤ (m : Int) ∧ o.state.max = m ∧ TraceOK m o.trace

lemma traceOK_nil (m : Nat) : TraceOK m [] := by
  intro v hv
  simp at hv

lemma traceOK_append (m : Nat) (t1 t2 : List Ev) :
    TraceOK m (t1 ++ t2) ↔ TraceOK m t1 ∧ TraceOK m t2 := by
  constructor
  · intro h
    exact ⟨fun v hv => h v (List.mem_append_left _ hv),
           fun v hv => h v (List.mem_append_right _ hv)⟩
  · rintro ⟨h1, h2⟩ v hv
    rcases List.mem_append.mp hv with hv | hv
    · exact h1 v hv
    · exact h2 v hv

lemma withTrace_state (o : Outcome α) (t : List Ev) : (o.withTrace t).state = o.state := by
  cases o <;> rfl

lemma withTrace_trace (o : Outcome α) (t : List Ev) : (o.withTrace t).trace = t ++ o.trace := by
  cases o <;> rfl

lemma outcomeOK_withTrace (m : Nat) (o : Outcome α) (t : List Ev)
    (ho : OutcomeOK m o) (ht : TraceOK m t) : OutcomeOK m (o.withTrace t) := by
  refine ⟨?_, ?_, ?_⟩
  · rw [withTrace_state]; exact ho.1
  · rw [withTrace_state]; exact ho.2.1
  · rw [withTrace_trace]
    exact (traceOK_append m t o.trace).mpr ⟨ht, ho.2.2⟩

lemma acquire_outcomeOK (m : Nat) (B : builder) (s : ConnState)
    (h1 : s.active ≤ (m : Int)) (h2 : s.max = m) : OutcomeOK m (acquire B s) := by
  unfold acquire
  split
  · refine ⟨h1, h2, ?_⟩
    intro v hv
    simp [Outcome.trace] at hv
  · split
    · exact ⟨h1, h2, traceOK_nil m⟩
    · split
      · refine ⟨h1, h2, ?_⟩
        intro v hv
        simp [Outcome.trace] at hv
      · split
        · refine ⟨h1, h2, ?_⟩
          intro v hv
          simp [Outcome.trace] at hv
        · refine ⟨?_, h2, ?_⟩
          · show s.active + 1 ≤ (m : Int)
            omega
          · intro v hv
            simp [Outcome.trace] at hv
            omega

lemma Close_outcomeOK (m : Nat) (c : Resource) (s : ConnState)
    (h1 : s.active ≤ (m : Int)) (h2 : s.max = m) : OutcomeOK m (Close c s) := by
  unfold Close
  split
  · exact ⟨h1, h2, traceOK_nil m⟩
  · split
    · refine ⟨h1, h2, ?_⟩
      intro v hv
      simp [Outcome.trace] at hv
    · refine ⟨?_, h2, ?_⟩
      · simp [Outcome.state]
        omega
      · intro v hv
        simp [Outcome.trace] at hv

lemma AcquireLoop_outcomeOK (m : Nat) (B : builder) :
    ∀ (fuel : Nat) (s : ConnState), s.active ≤ (m : Int) → s.max = m →
      OutcomeOK m (AcquireLoop B fuel s)
  | 0, s, h1, h2 => ⟨h1, h2, traceOK_nil m⟩
  | fuel + 1, s, h1, h2 => by
    have ha := acquire_outcomeOK m B s h1 h2
    unfold AcquireLoop
    split
    · rename_i e s2 tr heq
      rw [heq] at ha
      exact ha
    · rename_i s2 tr heq
      rw [heq] at ha
      exact ha
    · rename_i c s2 tr heq
      rw [heq] at ha
      obtain ⟨ha1, ha2, ha3⟩ := ha
      simp [Outcome.state, Outcome.trace] at ha1 ha2 ha3
      split
      · have hcl := Close_outcomeOK m c s2 ha1 ha2
        split
        · rename_i s3 tr2 hceq
          rw [hceq] at hcl
          obtain ⟨hc1, hc2, hc3⟩ := hcl
          simp [Outcome.state, Outcome.trace] at hc1 hc2 hc3
          refine ⟨hc1, hc2, ?_⟩
          exact (traceOK_append m tr _).mpr ⟨ha3, hc3⟩
        · rename_i e3 s3 tr2 hceq
          rw [hceq] at hcl
          obtain ⟨hc1, hc2, hc3⟩ := hcl
          simp [Outcome.state, Outcome.trace] at hc1 hc2 hc3
          refine outcomeOK_withTrace m _ _ (AcquireLoop_outcomeOK m B fuel s3 hc1 hc2) ?_
          exact (traceOK_append m tr _).mpr ⟨ha3, hc3⟩
        · rename_i u3 s3 tr2 hceq
          rw [hceq] at hcl
          obtain ⟨hc1, hc2, hc3⟩ := hcl
          simp [Outcome.state, Outcome.trace] at hc1 hc2 hc3
          refine outcomeOK_withTrace m _ _ (AcquireLoop_outcomeOK m B fuel s3 hc1 hc2) ?_
          exact (traceOK_append m tr _).mpr ⟨ha3, hc3⟩
      · exact ⟨ha1, ha2, ha3⟩

lemma Acquire_outcomeOK (m : Nat) (B : builder) (s : ConnState)
    (h1 : s.active ≤ (m : Int)) (h2 : s.max = m) : OutcomeOK m (Acquire B s) := by
  unfold Acquire
  split
  · exact ⟨h1, h2, traceOK_nil m⟩
  · exact AcquireLoop_outcomeOK m B _ s h1 h2

lemma Regain_outcomeOK (m : Nat) (c : Resource) (s : ConnState)
    (h1 : s.active ≤ (m : Int)) (h2 : s.max = m) : OutcomeOK m (Regain c s) := by
  unfold Regain
  split
  · exact ⟨h1, h2, traceOK_nil m⟩
  · split
    · refine ⟨h1, h2, ?_⟩
      intro v hv
      simp [Outcome.trace] at hv
    · exact ⟨h1, h2, traceOK_nil m⟩

lemma drainEvents_no_inc :
    ∀ (l : List Resource) (a v : Int), Ev.incActive v ∉ drainEvents l a
  | [], a, v => by
    simp [drainEvents]
  | c :: rest, a, v => by
    intro hv
    simp only [drainEvents, List.mem_cons] at hv
    rcases hv with hv | hv | hv
    · exact Ev.noConfusion hv
    · exact Ev.noConfusion hv
    · exact drainEvents_no_inc rest (a - 1) v hv

lemma Release_outcomeOK (m : Nat) (s : ConnState)
    (h1 : s.active ≤ (m : Int)) (h2 : s.max = m) : OutcomeOK m (Release s) := by
  unfold Release
  split
  · exact ⟨h1, h2, traceOK_nil m⟩
  · split
    · exact ⟨h1, h2, traceOK_nil m⟩
    · refine ⟨?_, h2, ?_⟩
      · simp [Outcome.state]
        omega
      · intro v hv
        simp [Outcome.trace] at hv
        exact absurd hv (drainEvents_no_inc s.pool s.active v)

lemma applyOp_outcomeOK (m : Nat) (B : builder) (op : Op) (s : ConnState)
    (h1 : s.active ≤ (m : Int)) (h2 : s.max = m) :
    (applyOp B op s).1.active ≤ (m : Int) ∧ (applyOp B op s).1.max = m ∧
      TraceOK m (applyOp B op s).2 := by
  cases op with
  | acq => exact Acquire_outcomeOK m B s h1 h2
  | regain c => exact Regain_outcomeOK m c s h1 h2
  | retire c => exact Close_outcomeOK m c s h1 h2
  | shutdown => exact Release_outcomeOK m s h1 h2

lemma runStates_outcomeOK (m : Nat) (B : builder) :
    ∀ (ops : List Op) (s : ConnState), s.active ≤ (m : Int) → s.max = m →
      ∀ s2 ∈ runStates B ops s, s2.active ≤ (m : Int) ∧ s2.max = m
  | [], s, h1, h2, s2, hmem => by
    simp [runStates] at hmem
    subst hmem
    exact ⟨h1, h2⟩
  | op :: ops, s, h1, h2, s2, hmem => by
    simp only [runStates, List.mem_cons] at hmem
    rcases hmem with hmem | hmem
    · subst hmem
      exact ⟨h1, h2⟩
    · have hstep := applyOp_outcomeOK m B op s h1 h2
      exact runStates_outcomeOK m B ops _ hstep.1 hstep.2.1 s2 hmem

lemma runEvents_outcomeOK (m : Nat) (B : builder) :
    ∀ (ops : List Op) (s : ConnState), s.active ≤ (m : Int) → s.max = m →
      TraceOK m (runEvents B ops s)
  | [], _, _, _ => traceOK_nil m
  | op :: ops, s, h1, h2 => by
    have hstep := applyOp_outcomeOK m B op s h1 h2
    simp only [runEvents]
    exact (traceOK_append m _ _).mpr
      ⟨hstep.2.2, runEvents_outcomeOK m B ops _ hstep.1 hstep.2.1⟩

lemma buildN_ok_spec (B : builder) :
    ∀ (n : Nat) (s s2 : ConnState) (tr : List Ev),
      buildN B n s = (.ok s2, tr) →
      s2.active = s.active + n ∧ s2.max = s.max ∧
        ∀ v, Ev.incActive v ∈ tr → v ≤ s.active + n
  | 0, s, s2, tr, h => by
    simp only [buildN, Prod.mk.injEq] at h
    obtain ⟨h1, h2⟩ := h
    cases h1
    subst h2
    refine ⟨by omega, rfl, ?_⟩
    intro v hv
    simp at hv
  | n + 1, s, s2, tr, h => by
    simp only [buildN] at h
    split at h
    · simp only [Prod.mk.injEq] at h
      cases h.1
    · rename_i c hc
      simp only [Prod.mk.injEq] at h
      obtain ⟨h1, h2⟩ := h
      have hpair :
          buildN B n { s with built := s.built + 1, active := s.active + 1, pool := s.pool ++ [c] } =
            (Except.ok s2,
              (buildN B n
                { s with built := s.built + 1, active := s.active + 1, pool := s.pool ++ [c] }).2) := by
        rw [← h1]
      have ih := buildN_ok_spec B n _ s2 _ hpair
      simp only at ih
      obtain ⟨ih1, ih2, ih3⟩ := ih
      subst h2
      refine ⟨by omega, ih2, ?_⟩
      intro v hv
      simp at hv
      rcases hv with hv | hv
      · omega
      · have := ih3 v hv
        omega

/-! ### Helper lemmas: outcome inversions, the closed flag, drains -/

lemma withTrace_ok_inv (o : Outcome α) (t : List Ev) (a : α) (s2 : ConnState) (tr : List Ev)
    (h : o.withTrace t = .ok a s2 tr) : ∃ tr0, o = .ok a s2 tr0 := by
  cases o with
  | ok a0 s0 t0 =>
    simp only [Outcome.withTrace, Outcome.ok.injEq] at h
    exact ⟨t0, by rw [h.1, h.2.1]⟩
  | fail e0 s0 t0 => exact Outcome.noConfusion h
  | blocked s0 t0 => exact Outcome.noConfusion h

lemma withTrace_fail_inv (o : Outcome α) (t : List Ev) (e : Err) (s2 : ConnState) (tr : List Ev)
    (h : o.withTrace t = .fail e s2 tr) : ∃ tr0, o = .fail e s2 tr0 := by
  cases o with
  | ok a0 s0 t0 => exact Outcome.noConfusion h
  | fail e0 s0 t0 =>
    simp only [Outcome.withTrace, Outcome.fail.injEq] at h
    exact ⟨t0, by rw [h.1, h.2.1]⟩
  | blocked s0 t0 => exact Outcome.noConfusion h

lemma AcquireLoop_ok_done (B : builder) :
    ∀ (fuel : Nat) (s : ConnState) (c : Resource) (s2 : ConnState) (tr : List Ev),
      AcquireLoop B fuel s = .ok c s2 tr → c.done = false
  | 0, _, _, _, _, h => Outcome.noConfusion h
  | fuel + 1, s, c, s2, tr, h => by
    unfold AcquireLoop at h
    split at h
    · exact Outcome.noConfusion h
    · exact Outcome.noConfusion h
    · split at h
      · split at h
        · exact Outcome.noConfusion h
        · obtain ⟨tr0, h0⟩ := withTrace_ok_inv _ _ _ _ _ h
          exact AcquireLoop_ok_done B fuel _ c s2 tr0 h0
        · obtain ⟨tr0, h0⟩ := withTrace_ok_inv _ _ _ _ _ h
          exact AcquireLoop_ok_done B fuel _ c s2 tr0 h0
      · rename_i hdone
        injection h with hc hs ht
        subst hc
        simpa using hdone

lemma acquire_fail_inv (B : builder) (s : ConnState) (e : Err) (s2 : ConnState) (tr : List Ev)
    (h : acquire B s = .fail e s2 tr) : B s.built = .error e := by
  unfold acquire at h
  split at h
  · exact Outcome.noConfusion h
  · split at h
    · exact Outcome.noConfusion h
    · split at h
      · exact Outcome.noConfusion h
      · split at h
        · rename_i e0 he0
          injection h with h1 h2 h3
          rw [he0, h1]
        · exact Outcome.noConfusion h

lemma AcquireLoop_fail_inv (B : builder) :
    ∀ (fuel : Nat) (s : ConnState) (e : Err) (s2 : ConnState) (tr : List Ev),
      AcquireLoop B fuel s = .fail e s2 tr → ∃ n, B n = .error e
  | 0, _, _, _, _, h => Outcome.noConfusion h
  | fuel + 1, s, e, s2, tr, h => by
    unfold AcquireLoop at h
    split at h
    · rename_i e1 s1 tr1 heq
      injection h with h1 h2 h3
      exact ⟨s.built, h1 ▸ acquire_fail_inv B s e1 s1 tr1 heq⟩
    · exact Outcome.noConfusion h
    · split at h
      · split at h
        · exact Outcome.noConfusion h
        · obtain ⟨tr0, h0⟩ := withTrace_fail_inv _ _ _ _ _ h
          exact AcquireLoop_fail_inv B fuel _ e s2 tr0 h0
        · obtain ⟨tr0, h0⟩ := withTrace_fail_inv _ _ _ _ _ h
          exact AcquireLoop_fail_inv B fuel _ e s2 tr0 h0
      · exact Outcome.noConfusion h

lemma Acquire_fail_inv (B : builder) (s : ConnState) (e : Err) (s2 : ConnState) (tr : List Ev)
    (h : Acquire B s = .fail e s2 tr) : e = .poolClosed ∨ ∃ n, B n = .error e := by
  unfold Acquire at h
  split at h
  · injection h with h1 h2 h3
    exact .inl h1.symm
  · exact .inr (AcquireLoop_fail_inv B _ s e s2 tr h)

lemma Close_state_closed (c : Resource) (s : ConnState) :
    (Close c s).state.closed = s.closed := by
  unfold Close
  split
  · rfl
  · split <;> rfl

lemma Close_no_factory (c : Resource) (s : ConnState) (b : Bool) :
    Ev.factoryCall b ∉ (Close c s).trace := by
  unfold Close
  split
  · simp [Outcome.trace]
  · split <;> simp [Outcome.trace]

lemma applyOp_closed (B : builder) (op : Op) (s : ConnState) (h : s.closed = true) :
    (applyOp B op s).1.closed = true ∧ ∀ b, Ev.factoryCall b ∉ (applyOp B op s).2 := by
  cases op with
  | acq => simp [applyOp, Acquire, h, Outcome.state, Outcome.trace]
  | regain c => simp [applyOp, Regain, h, Outcome.state, Outcome.trace]
  | retire c =>
    refine ⟨?_, ?_⟩
    · show (Close c s).state.closed = true
      rw [Close_state_closed]
      exact h
    · intro b
      exact Close_no_factory c s b
  | shutdown => simp [applyOp, Release, h, Outcome.state, Outcome.trace]

lemma runStates_closed (B : builder) :
    ∀ (ops : List Op) (s : ConnState), s.closed = true →
      ∀ s2 ∈ runStates B ops s, s2.closed = true
  | [], s, h, s2, hmem => by
    simp [runStates] at hmem
    subst hmem
    exact h
  | op :: ops, s, h, s2, hmem => by
    simp only [runStates, List.mem_cons] at hmem
    rcases hmem with hmem | hmem
    · subst hmem
      exact h
    · exact runStates_closed B ops _ (applyOp_closed B op s h).1 s2 hmem

lemma runEvents_closed_no_factory (B : builder) :
    ∀ (ops : List Op) (s : ConnState), s.closed = true →
      ∀ b, Ev.factoryCall b ∉ runEvents B ops s
  | [], s, h, b => by simp [runEvents]
  | op :: ops, s, h, b => by
    simp only [runEvents, List.mem_append]
    intro hv
    rcases hv with hv | hv
    · exact (applyOp_closed B op s h).2 b hv
    · exact runEvents_closed_no_factory B ops _ (applyOp_closed B op s h).1 b hv

lemma buildN_no_closeCall (B : builder) :
    ∀ (n : Nat) (s : ConnState) (i : Nat) (b : Bool), Ev.closeCall i b ∉ (buildN B n s).2
  | 0, s, i, b => by simp [buildN]
  | n + 1, s, i, b => by
    simp only [buildN]
    split
    · simp
    · intro hv
      simp at hv
      exact buildN_no_closeCall B n _ i b hv

lemma buildN_error_at (B : builder) :
    ∀ (n k : Nat) (s : ConnState) (e : Err),
      (∀ i, i < k → ∃ r, B (s.built + i) = Except.ok r) →
      B (s.built + k) = .error e → k < n →
      (buildN B n s).1 = .error e
  | 0, k, _, _, _, _, hkn => absurd hkn (Nat.not_lt_zero k)
  | n + 1, k, s, e, hk, he, hkn => by
    cases k with
    | zero =>
      rw [Nat.add_zero] at he
      simp only [buildN]
      split
      · rename_i e0 he0
        have hee : e0 = e := by
          rw [he0] at he
          exact Except.error.inj he
        show Except.error e0 = Except.error e
        rw [hee]
      · rename_i c hc
        rw [hc] at he
        exact Except.noConfusion he
    | succ k0 =>
      obtain ⟨r, hr⟩ := hk 0 (Nat.succ_pos k0)
      rw [Nat.add_zero] at hr
      simp only [buildN]
      split
      · rename_i e0 he0
        rw [hr] at he0
        exact Except.noConfusion he0
      · rename_i c hc
        apply buildN_error_at B n k0 _ e
        · intro i hi
          have hx := hk (i + 1) (by omega)
          show ∃ r2, B (s.built + 1 + i) = Except.ok r2
          rw [show s.built + 1 + i = s.built + (i + 1) by omega]
          exact hx
        · show B (s.built + 1 + k0) = Except.error e
          rw [show s.built + 1 + k0 = s.built + (k0 + 1) by omega]
          exact he
        · omega

lemma drainEvents_mem_close :
    ∀ (l : List Resource) (a : Int) (c : Resource), c ∈ l →
      Ev.closeCall c.id (!c.closeFails) ∈ drainEvents l a
  | [], _, c, h => absurd h (List.not_mem_nil c)
  | c0 :: rest, a, c, h => by
    simp only [drainEvents, List.mem_cons]
    rcases List.mem_cons.mp h with h | h
    · subst h
      exact .inr (.inl rfl)
    · exact .inr (.inr (drainEvents_mem_close rest (a - 1) c h))

/-! ### Claim C1: active never exceeds capacity -/

/-- Claim C1: for every pool created by `NewConnManager` with positive
capacity and every sequence of Acquire/Regain/Retire/Shutdown operations,
`active` never exceeds the capacity — at every reached state, and at every
intermediate increment of `active` recorded in a trace, both during eager
construction in `NewConnManager` and during the construct-on-demand branch
of `acquire`. -/
theorem C1_active_never_exceeds_capacity (B : builder) (m : Int)
    (s0 : ConnState) (tr0 : List Ev) (ops : List Op)
    (h0 : NewConnManager m B = (Except.ok s0, tr0)) :
    (∀ v, Ev.incActive v ∈ tr0 → v ≤ (s0.max : Int)) ∧
    (∀ s2 ∈ runStates B ops s0, s2.active ≤ (s2.max : Int)) ∧
    (∀ v, Ev.incActive v ∈ runEvents B ops s0 → v ≤ (s0.max : Int)) := by
  unfold NewConnManager at h0
  split at h0
  · simp at h0
  · obtain ⟨hb1, hb2, hb3⟩ := buildN_ok_spec B m.toNat _ s0 tr0 h0
    have hmax : s0.max = m.toNat := hb2
    have hb1x : s0.active = 0 + (m.toNat : Int) := hb1
    have hb3x : ∀ v, Ev.incActive v ∈ tr0 → v ≤ 0 + (m.toNat : Int) := hb3
    have hact : s0.active ≤ (s0.max : Int) := by
      rw [hmax]
      omega
    refine ⟨?_, ?_, ?_⟩
    · intro v hv
      have := hb3x v hv
      rw [hmax]
      omega
    · intro s2 hmem
      have hrun := runStates_outcomeOK s0.max B ops s0 hact rfl s2 hmem
      rw [hrun.2]
      exact hrun.1
    · intro v hv
      exact runEvents_outcomeOK s0.max B ops s0 hact rfl v hv

/-- Builder used by the C1 witness: always succeeds. -/
def B1w : builder := fun _ => .ok ⟨1, false, false⟩

/-- State of the C1 witness pool right after construction at capacity 1. -/
def s1w : ConnState := ⟨[⟨1, false, false⟩], 1, 1, false, false, 1⟩

/-- Witness for C1: a concrete capacity-1 pool and a one-operation run. -/
theorem C1_witness : s1w.active ≤ (s1w.max : Int) :=
  (C1_active_never_exceeds_capacity B1w 1 s1w
    [.factoryCall true, .incActive 1, .sendPool 1] [Op.acq] rfl).2.1 s1w (by decide)

/-! ### Claim C2: Acquire never returns an invalid resource -/

/-- Builder for the C2 concrete runs; never invoked on these inputs. -/
def B2c : builder := fun n => .error (.builderErr n)

/-- C2 counterexample state: the first pooled resource has its Done signal
fired (and a succeeding close); a valid resource sits behind it. -/
def s2c : ConnState := ⟨[⟨1, true, false⟩, ⟨2, false, false⟩], 2, 2, false, false, 2⟩

/-- Claim C2, counterexample: Acquire obtains the invalid resource 1 and
begins retiring it, but the retirement blocks at the `event` send, so the
claimed restart of the whole Acquire sequence never happens — the valid
resource 2 is never returned. -/
theorem C2_counterexample :
    Acquire B2c s2c = .blocked ⟨[⟨2, false, false⟩], 2, 1, false, false, 2⟩
      [.recvPool 1, .lock, .closeCall 1 true, .decActive 1, .unlock, .sendEvent] ∧
    (Acquire B2c s2c).isOk = false := by
  decide

/-- Claim C2, amended: every successful Acquire yields a resource whose
Done signal has not fired; on an invalid resource the code invokes
retirement and re-enters the take/construct step without repeating the
closed check, but when the retirement's close succeeds and no waiter is
present the retirement blocks, so Acquire does not return at all. -/
theorem C2_acquire_returns_only_valid (B : builder) (s : ConnState) (c : Resource)
    (s2 : ConnState) (tr : List Ev) (h : Acquire B s = .ok c s2 tr) : c.done = false := by
  unfold Acquire at h
  split at h
  · exact Outcome.noConfusion h
  · exact AcquireLoop_ok_done B _ s c s2 tr h

/-- State for the C2 witness: one valid pooled resource. -/
def s2w : ConnState := ⟨[⟨1, false, false⟩], 1, 1, false, false, 1⟩

/-- Witness for C2 at a concrete successful Acquire. -/
theorem C2_witness : (⟨1, false, false⟩ : Resource).done = false :=
  C2_acquire_returns_only_valid B2c s2w ⟨1, false, false⟩ ⟨[], 1, 1, false, false, 1⟩
    [.recvPool 1] (by decide)

/-! ### Claim C3: Retire on a failing close -/

/-- State for the C3 counterexample. -/
def s3c : ConnState := ⟨[], 1, 1, false, false, 1⟩

/-- Claim C3, counterexample: retiring a resource whose close fails
propagates the error, but `active` stays at 1 — the claimed decrement is
skipped — and the mutex is left held. -/
theorem C3_counterexample :
    Close ⟨1, false, true⟩ s3c = .fail (.closeErr 1) ⟨[], 1, 1, false, true, 1⟩
      [.lock, .closeCall 1 false] ∧
    (Close ⟨1, false, true⟩ s3c).state.active = 1 ∧
    (Close ⟨1, false, true⟩ s3c).state.mutexHeld = true := by
  decide

/-- Claim C3, amended: when the close fails, `Close` propagates the error
but performs no accounting update: `active` is unchanged and the mutex
stays held. -/
theorem C3_close_failure_skips_decrement (c : Resource) (s : ConnState)
    (hm : s.mutexHeld = false) (hf : c.closeFails = true) :
    Close c s = .fail (.closeErr c.id) { s with mutexHeld := true } [.lock, .closeCall c.id false] ∧
    (Close c s).state.active = s.active := by
  constructor
  · simp [Close, hm, hf]
  · simp [Close, hm, hf, Outcome.state]

/-- Witness for C3 at a concrete failing close. -/
theorem C3_witness :
    Close ⟨1, false, true⟩ s3c = .fail (.closeErr 1) ⟨[], 1, 1, false, true, 1⟩
      [.lock, .closeCall 1 false] :=
  (C3_close_failure_skips_decrement ⟨1, false, true⟩ s3c rfl rfl).1

/-! ### Claim C4: the waiter notification blocks -/

/-- State for the C4 failing input. -/
def s4c : ConnState := ⟨[], 1, 1, false, false, 1⟩

/-- Claim C4 (code bug): retiring a resource whose close succeeds, with no
concurrent Acquire waiting, does not return — the send on the unbuffered
`event` channel blocks the caller; the trace ends at `sendEvent`. -/
theorem C4_retire_blocks_on_event_send :
    Close ⟨1, false, false⟩ s4c = .blocked ⟨[], 1, 0, false, false, 1⟩
      [.lock, .closeCall 1 true, .decActive 0, .unlock, .sendEvent] ∧
    (Close ⟨1, false, false⟩ s4c).isOk = false := by
  decide

/-! ### Claim C5: partial construction failure -/

/-- Builder for the C5 scenario: first call succeeds, second fails. -/
def B5c : builder := fun n => if n = 0 then .ok ⟨1, false, false⟩ else .error (.builderErr 1)

/-- Claim C5, counterexample (spec scenario C): capacity 3, factory fails
on the second call; `NewConnManager` returns the factory error and the
first resource was built and pooled (`sendPool 1`), yet no close of it
occurs anywhere in the construction trace — it is leaked. -/
theorem C5_counterexample :
    (NewConnManager 3 B5c).1 = .error (.builderErr 1) ∧
    Ev.sendPool 1 ∈ (NewConnManager 3 B5c).2 ∧
    (∀ i ∈ (NewConnManager 3 B5c).2, ∀ b : Bool, i ≠ .closeCall 1 b) := by
  refine ⟨rfl, by decide, by decide⟩

/-- Claim C5, amended: when the factory fails at its (k+1)-st call within
the capacity, `NewConnManager` propagates the factory error and returns no
pool, but the already-built resources are not closed: the construction
trace contains no close event at all. -/
theorem C5_partial_failure_leak (B : builder) (m : Int) (k : Nat) (e : Err)
    (hk : ∀ i, i < k → ∃ r, B i = Except.ok r)
    (he : B k = .error e) (hkm : (k : Int) < m) :
    (NewConnManager m B).1 = .error e ∧
    ∀ i b, Ev.closeCall i b ∉ (NewConnManager m B).2 := by
  constructor
  · unfold NewConnManager
    split
    · omega
    · apply buildN_error_at B m.toNat k _ e
      · intro i hi
        simpa using hk i hi
      · simpa using he
      · omega
  · intro i b
    unfold NewConnManager
    split
    · simp
    · exact buildN_no_closeCall B m.toNat _ i b

/-- Witness for C5 at the concrete scenario-C input. -/
theorem C5_witness : (NewConnManager 3 B5c).1 = .error (.builderErr 1) :=
  (C5_partial_failure_leak B5c 3 1 (.builderErr 1)
    (fun i hi => by
      have hi0 : i = 0 := by omega
      subst hi0
      exact ⟨⟨1, false, false⟩, rfl⟩)
    rfl (by decide)).1

/-! ### Claim C6: closed is terminal -/

/-- Closed-pool state for the C6 counterexample. -/
def s6c : ConnState := ⟨[], 1, 1, true, false, 1⟩

/-- Claim C6, counterexample: with the pool closed, `Close` (Retire) does
not return `PoolClosed`: it performs the close, decrements `active`
(1 → 0), and then blocks on the waiter notification. -/
theorem C6_counterexample :
    Close ⟨1, false, false⟩ s6c = .blocked ⟨[], 1, 0, true, false, 1⟩
      [.lock, .closeCall 1 true, .decActive 0, .unlock, .sendEvent] ∧
    (Close ⟨1, false, false⟩ s6c).isFail = false ∧
    (Close ⟨1, false, false⟩ s6c).state.active = 0 := by
  decide

/-- Claim C6, amended: once `closed` is true it never reverts along any
operation sequence and no factory call ever occurs afterwards; `Acquire`,
`Regain` and a second `Release` fail with `PoolClosed` without modifying
the state; `Close` (Retire), however, is not guarded by the closed flag. -/
theorem C6_closed_terminal (B : builder) (s : ConnState) (c : Resource)
    (h : s.closed = true) :
    Acquire B s = .fail .poolClosed s [] ∧
    Regain c s = .fail .poolClosed s [] ∧
    Release s = .fail .poolClosed s [] ∧
    (∀ ops, ∀ s2 ∈ runStates B ops s, s2.closed = true) ∧
    (∀ ops b, Ev.factoryCall b ∉ runEvents B ops s) := by
  refine ⟨?_, ?_, ?_, ?_, ?_⟩
  · simp [Acquire, h]
  · simp [Regain, h]
  · simp [Release, h]
  · intro ops s2 hmem
    exact runStates_closed B ops s h s2 hmem
  · intro ops b
    exact runEvents_closed_no_factory B ops s h b

/-- Builder for the C6 witness; never invoked. -/
def B6w : builder := fun n => .error (.builderErr n)

/-- Closed-pool state for the C6 witness. -/
def s6w : ConnState := ⟨[], 2, 0, true, false, 0⟩

/-- Witness for C6: Acquire on a concrete closed pool fails with
`PoolClosed`. -/
theorem C6_witness : Acquire B6w s6w = .fail .poolClosed s6w [] :=
  (C6_closed_terminal B6w s6w ⟨9, false, false⟩ rfl).1

/-! ### Claim C7: order of increment, lock and factory call -/

/-- Builder for the C7 concrete run. -/
def B7c : builder := fun _ => .ok ⟨1, false, false⟩

/-- Empty-pool state with a free slot for the C7 concrete run. -/
def s7c : ConnState := ⟨[], 1, 0, false, false, 0⟩

/-- Claim C7, counterexample: in the construct-on-demand branch the event
order is lock, factory call, increment, unlock — the factory call (index
1) happens before the increment of `active` (index 2) and before the
unlock (index 3), refuting "incremented first, under the lock and before
the lock is released to call the factory". -/
theorem C7_counterexample :
    (acquire B7c s7c).trace =
      [.lock, .factoryCall true, .incActive 1, .unlock, .sendPool 1, .recvPool 1] ∧
    (acquire B7c s7c).trace.findIdx isFactoryEv = 1 ∧
    (acquire B7c s7c).trace.findIdx isIncEv = 2 ∧
    (acquire B7c s7c).trace.findIdx isUnlockEv = 3 ∧
    ¬ (acquire B7c s7c).trace.findIdx isIncEv < (acquire B7c s7c).trace.findIdx isFactoryEv ∧
    ¬ (acquire B7c s7c).trace.findIdx isUnlockEv < (acquire B7c s7c).trace.findIdx isFactoryEv := by
  decide

/-- Claim C7, amended: the whole check-construct-increment is one critical
section: the factory is invoked while the lock is held, `active` is
incremented only after the factory succeeds (still before the unlock), and
on factory failure the error is propagated verbatim with `active`
unchanged — so two callers racing for one free slot still cause exactly
one construction. -/
theorem C7_construct_branch (B : builder) (s : ConnState)
    (hp : s.pool = []) (hm : s.mutexHeld = false) (hc : s.active < (s.max : Int)) :
    (∀ e, B s.built = .error e →
      acquire B s = .fail e { s with built := s.built + 1 } [.lock, .factoryCall false, .unlock]) ∧
    (∀ c, B s.built = .ok c →
      acquire B s = .ok c { s with built := s.built + 1, active := s.active + 1 }
        [.lock, .factoryCall true, .incActive (s.active + 1), .unlock, .sendPool c.id,
         .recvPool c.id]) := by
  have hcap : ¬ ((s.max : Int) ≤ s.active) := by omega
  constructor
  · intro e he
    unfold acquire
    rw [hp]
    simp [hm, hcap, he]
  · intro c hc2
    unfold acquire
    rw [hp]
    simp [hm, hcap, hc2]

/-- Witness for C7 at the concrete construct-on-demand run. -/
theorem C7_witness :
    acquire B7c s7c = .ok ⟨1, false, false⟩ ⟨[], 1, 1, false, false, 1⟩
      [.lock, .factoryCall true, .incActive 1, .unlock, .sendPool 1, .recvPool 1] :=
  (C7_construct_branch B7c s7c rfl rfl (by decide)).2 ⟨1, false, false⟩ rfl

/-! ### Claim C8: shutdown drain error handling -/

/-- State for the C8 counterexample: one available resource whose close
fails. -/
def s8c : ConnState := ⟨[⟨1, false, true⟩], 1, 1, false, false, 1⟩

/-- Claim C8, counterexample: Shutdown over an `available` holding one
resource whose close fails still returns ok (nil error) — the drain close
failure (`closeCall 1 false` in the trace) is silently swallowed, never
surfaced. -/
theorem C8_counterexample :
    Release s8c = .ok () ⟨[], 1, 0, true, false, 1⟩
      [.lock, .decActive 0, .closeCall 1 false, .unlock] ∧
    Ev.closeCall 1 false ∈ (Release s8c).trace ∧
    (Release s8c).isFail = false := by
  decide

/-- Claim C8, amended: Shutdown drains every available resource — each one
gets a close call recorded in the trace and `active` is decremented per
resource — but it always returns nil: close failures during the drain are
discarded and never surfaced. -/
theorem C8_shutdown_swallows_close_errors (s : ConnState)
    (hc : s.closed = false) (hm : s.mutexHeld = false) :
    Release s = .ok () { s with pool := [], active := s.active - s.pool.length, closed := true }
      ([.lock] ++ drainEvents s.pool s.active ++ [.unlock]) ∧
    (∀ c ∈ s.pool, Ev.closeCall c.id (!c.closeFails) ∈ (Release s).trace) ∧
    (Release s).isOk = true := by
  have hrel : Release s = .ok ()
      { s with pool := [], active := s.active - s.pool.length, closed := true }
      ([.lock] ++ drainEvents s.pool s.active ++ [.unlock]) := by
    simp [Release, hc, hm]
  refine ⟨hrel, ?_, ?_⟩
  · intro c hcm
    rw [hrel]
    simp only [Outcome.trace]
    refine List.mem_append_left _ (List.mem_append_right _ ?_)
    exact drainEvents_mem_close s.pool s.active c hcm
  · rw [hrel]
    rfl

/-- State for the C8 witness: one available resource with a succeeding
close. -/
def s8w : ConnState := ⟨[⟨3, false, false⟩], 2, 1, false, false, 1⟩

/-- Witness for C8 at a concrete shutdown drain. -/
theorem C8_witness :
    Release s8w = .ok () ⟨[], 2, 0, true, false, 1⟩
      [.lock, .decActive 0, .closeCall 3 true, .unlock] :=
  (C8_shutdown_swallows_close_errors s8w rfl rfl).1

/-! ### Claim C9: Regain is a pure hand-back -/

/-- Claim C9: on an open pool (with room in the buffer, which always holds
for a genuinely checked-out resource), Regain returns no error and its
only effect is appending the resource to `available`: `active`, `max`,
`closed` and the mutex are unchanged, and no close or factory call
occurs. -/
theorem C9_regain_pure_handback (s : ConnState) (c : Resource)
    (hc : s.closed = false) (hl : s.pool.length < s.max) :
    Regain c s = .ok () { s with pool := s.pool ++ [c] } [.sendPool c.id] ∧
    (Regain c s).state.active = s.active ∧
    (Regain c s).state.max = s.max ∧
    (Regain c s).state.closed = false ∧
    (Regain c s).state.mutexHeld = s.mutexHeld ∧
    (∀ i b, Ev.closeCall i b ∉ (Regain c s).trace) ∧
    (∀ b, Ev.factoryCall b ∉ (Regain c s).trace) := by
  have hr : Regain c s = .ok () { s with pool := s.pool ++ [c] } [.sendPool c.id] := by
    simp [Regain, hc, hl]
  refine ⟨hr, ?_, ?_, ?_, ?_, ?_, ?_⟩ <;> rw [hr]
  · rfl
  · rfl
  · exact hc
  · rfl
  · intro i b
    simp [Outcome.trace]
  · intro b
    simp [Outcome.trace]

/-- State for the C9 witness: an open pool with a free buffer slot. -/
def s9w : ConnState := ⟨[], 2, 1, false, false, 1⟩

/-- Witness for C9 at a concrete regain. -/
theorem C9_witness :
    Regain ⟨5, false, false⟩ s9w =
      .ok () ⟨[⟨5, false, false⟩], 2, 1, false, false, 1⟩ [.sendPool 5] :=
  (C9_regain_pure_handback s9w ⟨5, false, false⟩ rfl (by decide)).1

/-! ### Claim C10: retirement close errors inside Acquire -/

/-- Builder for the C10 concrete run; never invoked on it. -/
def B10c : builder := fun n => .error (.builderErr n)

/-- State for the C10 counterexample: an invalid resource with a failing
close in front of a valid one. -/
def s10c : ConnState := ⟨[⟨1, true, true⟩, ⟨2, false, false⟩], 2, 2, false, false, 2⟩

/-- Claim C10, counterexample: Acquire obtains the invalid resource 1,
its retirement close fails (`closeCall 1 false` in the trace), yet the
call returns resource 2 successfully — the close error was discarded, not
surfaced to the Acquire caller. -/
theorem C10_counterexample :
    Acquire B10c s10c = .ok ⟨2, false, false⟩ ⟨[], 2, 2, false, true, 2⟩
      [.recvPool 1, .lock, .closeCall 1 false, .recvPool 2] ∧
    Ev.closeCall 1 false ∈ (Acquire B10c s10c).trace := by
  decide

/-- Claim C10, amended: the error of a retirement close performed inside
Acquire is never surfaced: as long as the builder itself never returns a
close error, no failing Acquire ever reports one. -/
theorem C10_close_error_never_surfaced (B : builder)
    (hB : ∀ n i, B n ≠ .error (.closeErr i))
    (s : ConnState) (e : Err) (s2 : ConnState) (tr : List Ev) (i : Nat)
    (h : Acquire B s = .fail e s2 tr) : e ≠ .closeErr i := by
  intro hei
  subst hei
  rcases Acquire_fail_inv B s _ s2 tr h with hpc | ⟨n, hn⟩
  · exact Err.noConfusion hpc
  · exact hB n i hn

/-- Builder for the C10 witness: fails with a (non-close) builder error. -/
def B10w : builder := fun _ => .error (.builderErr 7)

/-- Empty open pool for the C10 witness. -/
def s10w : ConnState := ⟨[], 1, 0, false, false, 0⟩

/-- Witness for C10 at a concrete failing Acquire. -/
theorem C10_witness : (Err.builderErr 7) ≠ .closeErr 0 :=
  C10_close_error_never_surfaced B10w
    (fun n i hx => by
      have hxe : Err.builderErr 7 = Err.closeErr i := Except.error.inj hx
      exact Err.noConfusion hxe)
    s10w (.builderErr 7) ⟨[], 1, 0, false, false, 1⟩ [.lock, .factoryCall false, .unlock] 0 rfl

end Refined
